import Mathlib

/-!
Shallow embedding of the `sh` package of carolynvs/mage
(src/sh/cmd.go, src/sh/prepared_command.go, src/sh/capture.go).

Machine-level effects are made explicit:
* `io.Writer` destinations are the inductive `Writer`; a Go `nil` writer is
  `Option.none`.
* `exec.Cmd` values live on an explicit heap (`Store`), and a
  `PreparedCommand` holds a reference into it, mirroring the Go struct that
  holds a `*exec.Cmd` pointer.  Builder methods thread the store.
* running a child process is parameterised by a `ChildBehavior` (what the
  child writes on each of its streams and the raw error `exec.Cmd.Run`
  returns); the bytes delivered to each destination are accumulated in a
  `Written` record.
* Go errors relevant to this package are the inductive `GoError`.
-/

namespace MageSh

/-- An `io.Writer` destination as used by this package: the process-wide
`os.Stdout` / `os.Stderr`, an in-memory `bytes.Buffer` (identified by a
number), or an `io.MultiWriter` of two writers. -/
inductive Writer where
  | osStdout : Writer
  | osStderr : Writer
  | buf : Nat → Writer
  | multi : Writer → Writer → Writer
deriving DecidableEq, Repr

/-- The fields of `exec.Cmd` that this package reads or writes.
`exec.Command(name, arg...)` stores `append([]string{name}, arg...)` in
`Args`, so `args` here always starts with the program name. -/
structure Cmd where
  path : String
  args : List String
  dir : Option String := none
  env : List String := []
  stdout : Option Writer := none
  stderr : Option Writer := none
deriving DecidableEq, Repr, Inhabited

/-- `exec.Command(name, arg...)`: fresh `exec.Cmd` with `Args` starting with
the program name. -/
def execCommand (name : String) (arg : List String) : Cmd :=
  { path := name, args := name :: arg }

/-- The heap of `exec.Cmd` values; a `PreparedCommand` points into it. -/
def Store : Type := Nat → Cmd

/-- Write one heap cell. -/
def Store.write (σ : Store) (r : Nat) (c : Cmd) : Store :=
  fun r2 => if r2 = r then c else σ r2

/-- `PreparedCommand` (prepared_command.go:15-17) holds a `*exec.Cmd`,
modelled as a reference into the store. -/
structure PreparedCommand where
  ref : Nat
deriving DecidableEq, Repr

/-- Dereference the `Cmd` pointer of a `PreparedCommand`. -/
def Store.get (σ : Store) (c : PreparedCommand) : Cmd :=
  σ c.ref

/-- `Command` (prepared_command.go:21-27): allocate a fresh `exec.Cmd` at
reference `r`, with stdout bound to `os.Stdout`, stderr to `os.Stderr`, and
`Env` set to `os.Environ()` (the ambient environment `environ`). -/
def Command (σ : Store) (r : Nat) (environ : List String)
    (cmd : String) (args : List String) : Store × PreparedCommand :=
  let c := { execCommand cmd args with
             stdout := some Writer.osStdout
             stderr := some Writer.osStderr
             env := environ }
  (σ.write r c, { ref := r })

/-- `PreparedCommand.String` (prepared_command.go:29-31):
`strings.Join(c.Cmd.Args, " ")`.  (Named `GoString` here because the source
name `String` would shadow the string type inside this namespace.) -/
def PreparedCommand.GoString (c : PreparedCommand) (σ : Store) : String :=
  String.intercalate " " (σ.get c).args

/-- `Args` (prepared_command.go:34-37): appends arguments by assigning
through the shared `Cmd` pointer and returns the same handle. -/
def PreparedCommand.Args (c : PreparedCommand) (σ : Store)
    (args : List String) : Store × PreparedCommand :=
  (σ.write c.ref { σ.get c with args := (σ.get c).args ++ args }, c)

/-- `CollapseArgs` (prepared_command.go:43-52): keeps exactly the non-empty
arguments, in order, assigning the result through the shared pointer. -/
def PreparedCommand.CollapseArgs (c : PreparedCommand) (σ : Store) :
    Store × PreparedCommand :=
  (σ.write c.ref
      { σ.get c with args := (σ.get c).args.filter (fun arg => arg != "") },
    c)

/-- `Env` (prepared_command.go:58-63): appends each `NAME=value` entry to
`Cmd.Env` through the shared pointer. -/
def PreparedCommand.Env (c : PreparedCommand) (σ : Store)
    (vars : List String) : Store × PreparedCommand :=
  (σ.write c.ref { σ.get c with env := (σ.get c).env ++ vars }, c)

/-- `In` (prepared_command.go:66-69): sets `Cmd.Dir` through the shared
pointer. -/
def PreparedCommand.In (c : PreparedCommand) (σ : Store) (dir : String) :
    Store × PreparedCommand :=
  (σ.write c.ref { σ.get c with dir := some dir }, c)

/-- `Stdout` (prepared_command.go:72-75): sets `Cmd.Stdout` through the
shared pointer. -/
def PreparedCommand.Stdout (c : PreparedCommand) (σ : Store)
    (stdout : Option Writer) : Store × PreparedCommand :=
  (σ.write c.ref { σ.get c with stdout := stdout }, c)

/-- `Stderr` (prepared_command.go:78-81).  The source body is
`c.Cmd.Stdout = stdout; return c` — it assigns the given writer to
`Cmd.Stdout` and leaves `Cmd.Stderr` untouched, despite its name and its
doc comment ("Stderr directs stderr from the command"). -/
def PreparedCommand.Stderr (c : PreparedCommand) (σ : Store)
    (stdout : Option Writer) : Store × PreparedCommand :=
  (σ.write c.ref { σ.get c with stdout := stdout }, c)

/-- `Silent` (prepared_command.go:84-88): sets both `Cmd.Stdout` and
`Cmd.Stderr` to nil through the shared pointer. -/
def PreparedCommand.Silent (c : PreparedCommand) (σ : Store) :
    Store × PreparedCommand :=
  (σ.write c.ref { σ.get c with stdout := none, stderr := none }, c)

/-- The shapes of Go error values this package inspects:
* `exitError exited sys` — an `*exec.ExitError`; `exited` is `Exited()` and
  `sys` is the exit status exposed by `Sys()` when `Sys()` implements
  `ExitStatus() int` (`none` otherwise);
* `statusErr code msg` — any other error implementing `ExitStatus() int`
  (such as the error built by `mg.Fatalf`), with its message;
* `otherErr msg` — any other error (e.g. `*exec.Error` for a program that
  could not be found or started), with its message. -/
inductive GoError where
  | exitError : Bool → Option Int → GoError
  | statusErr : Int → String → GoError
  | otherErr : String → GoError
deriving DecidableEq, Repr

/-- `%v` rendering of a `GoError` (used when wrapping messages). -/
def GoError.errString : GoError → String
  | GoError.exitError _ (some n) => "exit status " ++ toString n
  | GoError.exitError _ none => "exit error"
  | GoError.statusErr _ msg => msg
  | GoError.otherErr msg => msg

/-- `CmdRan` (cmd.go:255-264): nil errors report true; an
`*exec.ExitError` reports its `Exited()`; every other error reports
false. -/
def CmdRan : Option GoError → Bool
  | none => true
  | some (GoError.exitError exited _) => exited
  | some (GoError.statusErr _ _) => false
  | some (GoError.otherErr _) => false

/-- `ExitStatus` (cmd.go:273-286): 0 for nil; the code of an error that
implements `ExitStatus() int`; else the status from an
`*exec.ExitError`'s `Sys()` when available; else 1. -/
def ExitStatus : Option GoError → Int
  | none => 0
  | some (GoError.statusErr code _) => code
  | some (GoError.exitError _ (some sys)) => sys
  | some (GoError.exitError _ none) => 1
  | some (GoError.otherErr _) => 1

/-- The bytes accumulated at each ultimate destination during one
execution: the caller's `os.Stdout`, the caller's `os.Stderr`, and each
`bytes.Buffer` (by identifier). -/
structure Written where
  toOsStdout : String
  toOsStderr : String
  toBuf : Nat → String

/-- No bytes written anywhere yet. -/
def Written.empty : Written :=
  { toOsStdout := "", toOsStderr := "", toBuf := fun _ => "" }

/-- One `Write` call on a concrete writer: append `data` at the writer's
destination; an `io.MultiWriter` writes to its first writer, then its
second. -/
def Written.addW : Written → Writer → String → Written
  | w, Writer.osStdout, data => { w with toOsStdout := w.toOsStdout ++ data }
  | w, Writer.osStderr, data => { w with toOsStderr := w.toOsStderr ++ data }
  | w, Writer.buf id, data =>
      { w with toBuf := fun i => if i = id then w.toBuf i ++ data else w.toBuf i }
  | w, Writer.multi a b, data => (w.addW a data).addW b data

/-- A write to an optional destination; a nil writer discards the data. -/
def Written.add (w : Written) (dest : Option Writer) (data : String) : Written :=
  match dest with
  | none => w
  | some d => w.addW d data

/-- What one child process does when run: the bytes it writes on its stdout
and stderr, and the raw error `exec.Cmd.Run` reports for it (`none` for
exit code 0). -/
structure ChildBehavior where
  outData : String
  errData : String
  result : Option GoError

/-- `exec.Cmd.Run`: the child's stdout bytes go to the configured
`Cmd.Stdout`, its stderr bytes to `Cmd.Stderr`, and the raw error is
returned. -/
def cmdRawRun (cmd : Cmd) (child : ChildBehavior) : Written × Option GoError :=
  (((Written.empty).add cmd.stdout child.outData).add cmd.stderr child.errData,
    child.result)

/-- Result of `PreparedCommand.Exec`: the three return values plus the bytes
this execution delivered to each destination. -/
structure ExecOutcome where
  ran : Bool
  code : Int
  err : Option GoError
  written : Written

/-- `PreparedCommand.Exec` (prepared_command.go:92-109): run the child,
classify with `CmdRan` / `ExitStatus`, and wrap a non-nil error — with
`mg.Fatalf code` and message `running "<args>" failed with exit code <code>`
when the command ran, else `fmt.Errorf` with message
`failed to run "<args>: <cause>"` (the closing quote of the Go format string
`failed to run "%s: %v"` comes after the cause). -/
def PreparedCommand.Exec (c : PreparedCommand) (σ : Store)
    (child : ChildBehavior) : ExecOutcome :=
  let (w, rawErr) := cmdRawRun (σ.get c) child
  let ran := CmdRan rawErr
  let code := ExitStatus rawErr
  let err : Option GoError :=
    match rawErr with
    | none => none
    | some e =>
      if ran then
        some (GoError.statusErr code
          ("running \"" ++ c.GoString σ ++ "\" failed with exit code " ++
            toString code))
      else
        some (GoError.otherErr
          ("failed to run \"" ++ c.GoString σ ++ ": " ++ e.errString ++ "\""))
  { ran := ran, code := code, err := err, written := w }

/-- `Run` (prepared_command.go:113-122): stdout to `os.Stdout` when verbose,
else nil; then `Exec`, returning only the error. -/
def PreparedCommand.Run (c : PreparedCommand) (σ : Store) (verbose : Bool)
    (child : ChildBehavior) : Option GoError × Written :=
  let σ1 := σ.write c.ref
    { σ.get c with
      stdout := if verbose then some Writer.osStdout else none }
  let r := c.Exec σ1 child
  (r.err, r.written)

/-- `RunV` (prepared_command.go:125-129): stdout forced to `os.Stdout` via
the `Stdout` method, then `Exec`. -/
def PreparedCommand.RunV (c : PreparedCommand) (σ : Store)
    (child : ChildBehavior) : Option GoError × Written :=
  let (σ1, c1) := c.Stdout σ (some Writer.osStdout)
  let r := c1.Exec σ1 child
  (r.err, r.written)

/-- `RunE` (prepared_command.go:132-141): a fresh buffer (`bufId`, assumed
unused elsewhere) is installed via the `Stdout` and `Stderr` methods; after
`Exec`, on a non-nil error the buffer's content is replayed to the caller's
`os.Stderr` with `fmt.Fprint`. -/
def PreparedCommand.RunE (c : PreparedCommand) (σ : Store) (bufId : Nat)
    (child : ChildBehavior) : Option GoError × Written :=
  let (σ1, c1) := c.Stdout σ (some (Writer.buf bufId))
  let (σ2, c2) := c1.Stderr σ1 (some (Writer.buf bufId))
  let r := c2.Exec σ2 child
  let w :=
    if r.err.isSome then r.written.addW Writer.osStderr (r.written.toBuf bufId)
    else r.written
  (r.err, w)

/-- `RunS` (prepared_command.go:144-147): `Silent` then `Exec`. -/
def PreparedCommand.RunS (c : PreparedCommand) (σ : Store)
    (child : ChildBehavior) : Option GoError × Written :=
  let (σ1, c1) := c.Silent σ
  let r := c1.Exec σ1 child
  (r.err, r.written)

/-- `strings.TrimSuffix`: remove exactly one trailing copy of `suffix` when
present (stated over the character lists so that it evaluates by
reduction; Go checks the byte suffix, which agrees). -/
def trimSuffix (s suffix : String) : String :=
  if suffix.toList.isSuffixOf s.toList then
    String.mk (s.toList.take (s.toList.length - suffix.toList.length))
  else s

/-- `Output` (prepared_command.go:150-160): a fresh buffer (`bufId`) is
assigned to `Cmd.Stdout` directly — tee'd with `os.Stdout` via
`io.MultiWriter` when verbose — then `Exec`; returns the buffer content with
one trailing newline trimmed, plus the error. -/
def PreparedCommand.Output (c : PreparedCommand) (σ : Store) (verbose : Bool)
    (bufId : Nat) (child : ChildBehavior) :
    (String × Option GoError) × Written :=
  let sink : Writer :=
    if verbose then Writer.multi (Writer.buf bufId) Writer.osStdout
    else Writer.buf bufId
  let σ1 := σ.write c.ref { σ.get c with stdout := some sink }
  let r := c.Exec σ1 child
  ((trimSuffix (r.written.toBuf bufId) "\n", r.err), r.written)

/-- `OutputV` (prepared_command.go:163-168): like `Output` but always tee'd
to `os.Stdout`. -/
def PreparedCommand.OutputV (c : PreparedCommand) (σ : Store) (bufId : Nat)
    (child : ChildBehavior) : (String × Option GoError) × Written :=
  let σ1 := σ.write c.ref
    { σ.get c with
      stdout := some (Writer.multi (Writer.buf bufId) Writer.osStdout) }
  let r := c.Exec σ1 child
  ((trimSuffix (r.written.toBuf bufId) "\n", r.err), r.written)

/-- `OutputE` (prepared_command.go:171-181): two fresh buffers `stdoutId`
and `outputId`; `c.Stdout(io.MultiWriter(stdout, output))` then
`c.Stderr(output)` (which, per the `Stderr` body, overwrites `Cmd.Stdout`
with `output`); after `Exec`, on error the `output` buffer is replayed to
`os.Stderr`; returns `stdout.String()` (no newline trimming in the
source). -/
def PreparedCommand.OutputE (c : PreparedCommand) (σ : Store)
    (stdoutId outputId : Nat) (child : ChildBehavior) :
    (String × Option GoError) × Written :=
  let (σ1, c1) := c.Stdout σ
    (some (Writer.multi (Writer.buf stdoutId) (Writer.buf outputId)))
  let (σ2, c2) := c1.Stderr σ1 (some (Writer.buf outputId))
  let r := c2.Exec σ2 child
  let w :=
    if r.err.isSome then
      r.written.addW Writer.osStderr (r.written.toBuf outputId)
    else r.written
  ((r.written.toBuf stdoutId, r.err), w)

/-- `OutputS` (prepared_command.go:184-188): a fresh buffer `stdoutId` is
allocated but never attached to the command; `Silent().Exec()` runs with
both sinks nil, and the (never written) buffer's trimmed content is
returned. -/
def PreparedCommand.OutputS (c : PreparedCommand) (σ : Store)
    (stdoutId : Nat) (child : ChildBehavior) :
    (String × Option GoError) × Written :=
  let (σ1, c1) := c.Silent σ
  let r := c1.Exec σ1 child
  ((trimSuffix (r.written.toBuf stdoutId) "\n", r.err), r.written)

/-! ### Environment lookup and `os.Expand`

`os.Expand` and `os.Getenv` are Go standard-library functions used by
`Exec` (cmd.go:104-124); they are embedded here from their standard
behaviour.  Go scans bytes; the scan is modelled at rune (`Char`) level,
which agrees with the byte scan because every metacharacter involved is
ASCII.  Environments (`map[string]string` and the ambient environment) are
modelled as association lists with unique keys, looked up by first match. -/

/-- First-match association-list lookup (a Go map read). -/
def lookupEnv (env : List (String × String)) (name : String) : Option String :=
  match env with
  | [] => none
  | (k, v) :: rest => if k = name then some v else lookupEnv rest name

/-- `os.Getenv`: the ambient environment's value, or `""` when unset. -/
def osGetenv (amb : List (String × String)) (name : String) : String :=
  (lookupEnv amb name).getD ""

/-- The `expand` closure built inside `Exec` (cmd.go:105-111): the overlay
value when the overlay defines the name, else `os.Getenv`. -/
def execExpandMapping (env amb : List (String × String)) (s : String) : String :=
  match lookupEnv env s with
  | some v => v
  | none => osGetenv amb s

/-- `isAlphaNum` from `os` (underscore, digits, letters). -/
def isAlphaNum (c : Char) : Bool :=
  c == '_' || ('0' ≤ c && c ≤ '9') || ('a' ≤ c && c ≤ 'z') ||
    ('A' ≤ c && c ≤ 'Z')

/-- `isShellSpecialVar` from `os` (`*`, `#`, `$`, `@`, `!`, `?` and the
digits). -/
def isShellSpecialVar (c : Char) : Bool :=
  c == '*' || c == '#' || c == '$' || c == '@' || c == '!' || c == '?' ||
    ('0' ≤ c && c ≤ '9')

/-- Index of the first `}` in a character list, if any (the scan for the
closing brace in `getShellName`). -/
def findClose : List Char → Option Nat
  | [] => none
  | c :: rest => if c == '}' then some 0 else (findClose rest).map (· + 1)

/-- The `${`-branch of `getShellName`: `rest` is the input after the
opening brace; returns the name and the number of characters consumed
counting from the `{`. -/
def getShellNameBrace (rest : List Char) : List Char × Nat :=
  match findClose rest with
  | some k => if k = 0 then ([], 2) else (rest.take k, k + 2)
  | none => ([], 1)

/-- `getShellName` from `os`: given the input after a `$`, return the
variable name and the number of characters consumed. -/
def getShellName (s : List Char) : List Char × Nat :=
  match s with
  | [] => ([], 0)
  | c0 :: rest =>
    if c0 == '{' then
      match rest with
      | c1 :: c2 :: _ =>
        if isShellSpecialVar c1 && c2 == '}' then ([c1], 3)
        else getShellNameBrace rest
      | _ => getShellNameBrace rest
    else if isShellSpecialVar c0 then ([c0], 1)
    else
      let nm := s.takeWhile isAlphaNum
      (nm, nm.length)

/-- The scanning loop of `os.Expand`: a `$` followed by at least one
character is resolved with `getShellName` — invalid syntax is eaten, a `$`
not followed by a name is kept literally, and a name is replaced by its
mapping — and every other character passes through.  Every iteration
consumes at least one character, so running the loop with the input length
as fuel is exact and the fuel-out branch (which returns the remaining
characters) is never reached. -/
def expandCharsFuel (mapping : String → String) : Nat → List Char → List Char
  | 0, l => l
  | _ + 1, [] => []
  | fuel + 1, c :: rest =>
    if c = '$' ∧ rest ≠ [] then
      let res := getShellName rest
      if res.1 = [] ∧ 0 < res.2 then
        expandCharsFuel mapping fuel (rest.drop res.2)
      else if res.1 = [] then
        '$' :: expandCharsFuel mapping fuel (rest.drop res.2)
      else
        (mapping (String.mk res.1)).toList ++
          expandCharsFuel mapping fuel (rest.drop res.2)
    else c :: expandCharsFuel mapping fuel rest

/-- `os.Expand s mapping`. -/
def osExpand (s : String) (mapping : String → String) : String :=
  String.mk (expandCharsFuel mapping s.toList.length s.toList)

/-! ### The package-level `Exec` (cmd.go:104-136) -/

/-- Result of the package-level `Exec`.  Because the expansion loop assigns
`args[i] = os.Expand(args[i], expand)` in place, `finalArgs` is both the
argument list the child is launched with and the content of the caller's
(shared) args slice after `Exec` returns. -/
structure ShExecResult where
  launchedCmd : String
  finalArgs : List String
  ran : Bool
  err : Option GoError
  written : Written

/-- `Exec` (cmd.go:104-124): expand the command and every argument with the
overlay-then-ambient mapping, run the command via `run` (cmd.go:126-136,
which binds the given stdout/stderr writers, merges `os.Environ()` with the
overlay, and delegates to the prepared command, whose raw child error is
classified with `CmdRan` / `ExitStatus` — cmd.go:231), and wrap a non-nil
error: `mg.Fatalf` with `running "<cmd> <args>" failed with exit code <code>`
when the command ran, else `fmt.Errorf` with the format string
`failed to run "%s %s: %v"` (whose closing quote comes after the cause). -/
def Exec (env amb : List (String × String)) (stdout stderr : Option Writer)
    (cmd : String) (args : List String) (child : ChildBehavior) :
    ShExecResult :=
  let mapping := execExpandMapping env amb
  let cmd := osExpand cmd mapping
  let args := args.map (fun a => osExpand a mapping)
  let c : Cmd :=
    { execCommand cmd args with
      env := amb.map (fun p => p.1 ++ "=" ++ p.2) ++
        env.map (fun p => p.1 ++ "=" ++ p.2)
      stdout := stdout
      stderr := stderr }
  let (w, rawErr) := cmdRawRun c child
  let ran := CmdRan rawErr
  let code := ExitStatus rawErr
  match rawErr with
  | none =>
    { launchedCmd := cmd, finalArgs := args, ran := true, err := none,
      written := w }
  | some e =>
    if ran then
      { launchedCmd := cmd, finalArgs := args, ran := ran,
        err := some (GoError.statusErr code
          ("running \"" ++ cmd ++ " " ++ String.intercalate " " args ++
            "\" failed with exit code " ++ toString code)),
        written := w }
    else
      { launchedCmd := cmd, finalArgs := args, ran := ran,
        err := some (GoError.otherErr
          ("failed to run \"" ++ cmd ++ " " ++ String.intercalate " " args ++
            ": " ++ e.errString ++ "\"")),
        written := w }

/-- Modelled from the spec: the launch-failure message shape claimed by the
specification, `failed to run "<program> <args>": <cause>`, with the cause
after the closing quote.  Stated for comparison with the message `Exec`
actually builds. -/
def specLaunchFailureMsg (cmd : String) (args : List String)
    (cause : String) : String :=
  "failed to run \"" ++ cmd ++ " " ++ String.intercalate " " args ++
    "\": " ++ cause

/-! ### Stream capture (capture.go)

`captureFile` swaps the global stream for the write end of a pipe and
starts one goroutine that drains the read end into a buffer and sends the
buffered content on the unbuffered channel `out` exactly once, then exits.
The channel is modelled by the list of values that will ever be sent on it
(a singleton); receiving on the empty channel has no sender left and blocks
forever, modelled as `none`. -/

structure Capture where
  pending : List String
  released : Bool

/-- `captureFile` (capture.go:27-44) after the captured stream has received
`content` and the pipe has been closed: the drain goroutine will deliver
`content` as the single value ever sent on `out`. -/
def captureFile (content : String) : Capture :=
  { pending := [content], released := false }

/-- `Release` (capture.go:47-55): restores the stream once; later calls are
no-ops. -/
def Capture.Release (c : Capture) : Capture :=
  if c.released then c else { c with released := true }

/-- `Output` (capture.go:58-61): `Release` then a channel receive; `none`
models a receive that blocks forever because no sender remains. -/
def Capture.Output (c : Capture) : Option String × Capture :=
  let c1 := c.Release
  match c1.pending with
  | v :: rest => (some v, { c1 with pending := rest })
  | [] => (none, c1)

/-- A base store whose every cell holds the zero-value `Cmd` (used to build
concrete scenarios). -/
def store0 : Store := fun _ => default

/-! ## Helper lemmas -/

lemma string_mk_toList (s : String) : String.mk s.toList = s := by
  cases s
  rfl

lemma toList_append (s t : String) : (s ++ t).toList = s.toList ++ t.toList := by
  simp [String.toList]

lemma expandCharsFuel_nil (mapping : String → String) (fuel : Nat) :
    expandCharsFuel mapping fuel [] = [] := by
  cases fuel <;> rfl

lemma findClose_append_close (l : List Char) (h : '}' ∉ l) :
    findClose (l ++ ['}']) = some l.length := by
  induction l with
  | nil => rfl
  | cons c rest ih =>
    have hc : (c == '}') = false := by
      cases hh : c == '}' with
      | false => rfl
      | true =>
        have : c = '}' := by simpa using hh
        subst this
        simp at h
    have hrest : '}' ∉ rest := fun hm => h (List.mem_cons_of_mem _ hm)
    simp [findClose, hc, ih hrest]

lemma getShellName_alphanum (c0 : Char) (t : List Char)
    (halpha : ∀ c ∈ c0 :: t, isAlphaNum c = true)
    (hspec : isShellSpecialVar c0 = false) :
    getShellName (c0 :: t) = (c0 :: t, t.length + 1) := by
  have hc0 : isAlphaNum c0 = true := halpha c0 (List.mem_cons_self c0 t)
  have hbrace : (c0 == '{') = false := by
    cases hh : c0 == '{' with
    | false => rfl
    | true =>
      have : c0 = '{' := by simpa using hh
      subst this
      exact absurd hc0 (by decide)
  have htw : (c0 :: t).takeWhile isAlphaNum = c0 :: t :=
    List.takeWhile_eq_self_iff.mpr halpha
  simp [getShellName, hbrace, hspec, htw]

lemma getShellName_braced (nm : List Char) (hne : nm ≠ [])
    (hclose : '}' ∉ nm) :
    getShellName ('{' :: nm ++ ['}']) = (nm, nm.length + 2) := by
  match nm, hne with
  | [a], _ =>
    have ha : (a == '}') = false := by
      cases hh : a == '}' with
      | false => rfl
      | true =>
        have : a = '}' := by simpa using hh
        subst this
        simp at hclose
    by_cases hs : isShellSpecialVar a = true
    · simp [getShellName, hs]
    · simp [getShellName, hs, getShellNameBrace, findClose, ha]
  | a :: b :: t2, _ =>
    have hb : (b == '}') = false := by
      cases hh : b == '}' with
      | false => rfl
      | true =>
        have : b = '}' := by simpa using hh
        subst this
        simp at hclose
    have hcl : findClose (a :: b :: (t2 ++ ['}'])) = some (a :: b :: t2).length := by
      simpa only [List.cons_append] using findClose_append_close (a :: b :: t2) hclose
    have htake : (a :: b :: (t2 ++ ['}'])).take (a :: b :: t2).length = a :: b :: t2 := by
      simpa only [List.cons_append] using List.take_left (a :: b :: t2) ['}']
    simp [getShellName, getShellNameBrace, hb, hcl, htake]

lemma expandCharsFuel_single_ref (mapping : String → String) (fuel : Nat)
    (rest nm : List Char) (hne : nm ≠ [])
    (hgn : getShellName rest = (nm, rest.length)) (hrne : rest ≠ []) :
    expandCharsFuel mapping (fuel + 1) ('$' :: rest)
      = (mapping (String.mk nm)).toList := by
  rw [expandCharsFuel]
  rw [if_pos ⟨rfl, hrne⟩]
  simp only [hgn]
  rw [if_neg (by simp [hne])]
  rw [if_neg (by simp [hne])]
  rw [List.drop_length, expandCharsFuel_nil, List.append_nil]

lemma osExpand_dollar (mapping : String → String) (name : String)
    (c0 : Char) (t : List Char) (hsh : name.toList = c0 :: t)
    (halpha : ∀ c ∈ name.toList, isAlphaNum c = true)
    (hspec : isShellSpecialVar c0 = false) :
    osExpand ("$" ++ name) mapping = mapping name := by
  have halpha' : ∀ c ∈ c0 :: t, isAlphaNum c = true := by
    rw [← hsh]
    exact halpha
  have hgn : getShellName (c0 :: t) = (c0 :: t, (c0 :: t).length) := by
    rw [getShellName_alphanum c0 t halpha' hspec]
    simp
  have htl : ("$" ++ name).toList = '$' :: c0 :: t := by
    rw [toList_append, hsh]
    rfl
  have key := expandCharsFuel_single_ref mapping (t.length + 1) (c0 :: t)
    (c0 :: t) (by simp) hgn (by simp)
  have hmk : String.mk (c0 :: t) = name := hsh ▸ string_mk_toList name
  rw [osExpand, htl]
  simp only [List.length_cons]
  rw [key, hmk, string_mk_toList]

lemma osExpand_braced (mapping : String → String) (name : String)
    (hne : name.toList ≠ []) (hclose : '}' ∉ name.toList) :
    osExpand ("$\x7b" ++ name ++ "\x7d") mapping = mapping name := by
  have hgn : getShellName ('{' :: name.toList ++ ['}'])
      = (name.toList, ('{' :: name.toList ++ ['}']).length) := by
    rw [getShellName_braced name.toList hne hclose]
    have : ('{' :: name.toList ++ ['}']).length = name.toList.length + 2 := by
      simp only [List.length_cons, List.length_append, List.length_nil]
    rw [this]
  have htl : ("$\x7b" ++ name ++ "\x7d").toList
      = '$' :: ('{' :: name.toList ++ ['}']) := by
    rw [toList_append, toList_append]
    simp [show ("$\x7b").toList = ['$', '{'] from rfl,
      show ("\x7d").toList = ['}'] from rfl]
  have key := expandCharsFuel_single_ref mapping
    (name.toList.length + 2) ('{' :: name.toList ++ ['}'])
    name.toList hne hgn (by simp)
  have hlen : ('$' :: ('{' :: name.toList ++ ['}'])).length
      = (name.toList.length + 2) + 1 := by
    simp only [List.length_cons, List.length_append, List.length_nil]
  rw [osExpand, htl, hlen, key, string_mk_toList, string_mk_toList]

lemma Exec_launched (env amb : List (String × String))
    (so se : Option Writer) (cmd : String) (args : List String)
    (child : ChildBehavior) :
    (Exec env amb so se cmd args child).launchedCmd
        = osExpand cmd (execExpandMapping env amb) ∧
    (Exec env amb so se cmd args child).finalArgs
        = args.map (fun a => osExpand a (execExpandMapping env amb)) := by
  rcases child with ⟨o, e, res⟩
  rcases res with _ | e'
  · exact ⟨rfl, rfl⟩
  · constructor <;> · simp only [Exec, cmdRawRun]
                      split <;> rfl

lemma filter_ne_empty_idem (l : List String) :
    (l.filter (fun a => a != "")).filter (fun a => a != "")
      = l.filter (fun a => a != "") := by
  rw [List.filter_filter]
  congr 1
  funext a
  exact Bool.and_self _

/-! ## Claims -/

/-- C1: the claim says `Stderr(sink)` redirects the subprocess's standard
error to `sink` and leaves standard output unchanged.  The code does the
opposite: on a freshly built command, `Stderr (buf 7)` changes `Cmd.Stdout`
to the sink and leaves `Cmd.Stderr` at its default `os.Stderr`; executing
the command then delivers the child's stderr bytes to `os.Stderr`, not to
the sink. -/
theorem stderr_builder_sets_stdout :
    (let p := Command store0 0 [] "prog" []
     let q := p.2.Stderr p.1 (some (Writer.buf 7))
     ((q.1).get q.2).stdout = some (Writer.buf 7) ∧
     ((q.1).get q.2).stderr = some Writer.osStderr ∧
     (q.2.Exec q.1 ⟨"", "oops", none⟩).written.toBuf 7 = "" ∧
     (q.2.Exec q.1 ⟨"", "oops", none⟩).written.toOsStderr = "oops") := by
  decide

/-- C2: the claim says `Output`, `OutputV`, `OutputE` and `OutputS` all
return the captured stdout trimmed of one trailing newline.  On a child
that writes `"hello\n"` and exits 0: `Output` (both verbosity settings) and
`OutputV` do return `"hello"`, and `Output` leaves `"hello"` unchanged;
but `OutputE` and `OutputS` return `""` — `OutputE`'s stdout buffer is
detached when its `Stderr` call overwrites `Cmd.Stdout` (and its result is
not trimmed), and `OutputS` never attaches its buffer. -/
theorem output_variants_trimming :
    (let p := Command store0 0 [] "prog" []
     (p.2.Output p.1 false 0 ⟨"hello\n", "", none⟩).1.1 = "hello" ∧
     (p.2.Output p.1 true 0 ⟨"hello\n", "", none⟩).1.1 = "hello" ∧
     (p.2.Output p.1 false 0 ⟨"hello", "", none⟩).1.1 = "hello" ∧
     (p.2.OutputV p.1 0 ⟨"hello\n", "", none⟩).1.1 = "hello" ∧
     (p.2.OutputE p.1 1 2 ⟨"hello\n", "", none⟩).1.1 = "" ∧
     (p.2.OutputS p.1 1 ⟨"hello\n", "", none⟩).1.1 = "") ∧
    ("" : String) ≠ "hello" := by
  decide

/-- C3: the claim says `RunE` captures both streams into one buffer and
prints nothing when the error is nil.  In the code the `Stderr` call inside
`RunE` actually re-assigns `Cmd.Stdout`, so the child's stderr is never
captured: a child that writes `"oops"` to stderr and exits 0 yields a nil
error, an empty capture buffer, and `"oops"` printed on the caller's
`os.Stderr` anyway. -/
theorem runE_prints_stderr_on_success :
    (let p := Command store0 0 [] "prog" []
     let r := p.2.RunE p.1 5 ⟨"", "oops", none⟩
     r.1 = none ∧ r.2.toOsStderr = "oops" ∧ r.2.toBuf 5 = "") := by
  decide

/-- C4 (counterexample): the claim says builder operations never mutate a
configuration still referenced elsewhere.  Applying `In "tmpdir"` to one
handle of a freshly built command changes the `dir` observed through the
original handle, and the operation returns the very same handle. -/
theorem builder_branching_not_independent :
    (let p := Command store0 0 [] "prog" []
     let q := p.2.In p.1 "tmpdir"
     ((q.1).get p.2).dir = some "tmpdir" ∧ q.2 = p.2) := by
  decide

/-- C4 (amended): every builder operation (`Args`, `Env`, `In`, `Stdout`,
`Stderr`, `Silent`, `CollapseArgs`) returns the same `PreparedCommand`
handle and updates the shared underlying `Cmd` in place (so the change is
observable through every alias of the configuration), leaving all other
heap cells untouched. -/
theorem builder_ops_mutate_shared_cmd (σ : Store) (c : PreparedCommand)
    (args vars : List String) (dir : String) (w : Option Writer) :
    ((c.Args σ args).2 = c ∧
      (c.Args σ args).1.get c
          = { σ.get c with args := (σ.get c).args ++ args } ∧
      ∀ r, r ≠ c.ref → (c.Args σ args).1 r = σ r) ∧
    ((c.Env σ vars).2 = c ∧
      (c.Env σ vars).1.get c = { σ.get c with env := (σ.get c).env ++ vars } ∧
      ∀ r, r ≠ c.ref → (c.Env σ vars).1 r = σ r) ∧
    ((c.In σ dir).2 = c ∧
      (c.In σ dir).1.get c = { σ.get c with dir := some dir } ∧
      ∀ r, r ≠ c.ref → (c.In σ dir).1 r = σ r) ∧
    ((c.Stdout σ w).2 = c ∧
      (c.Stdout σ w).1.get c = { σ.get c with stdout := w } ∧
      ∀ r, r ≠ c.ref → (c.Stdout σ w).1 r = σ r) ∧
    ((c.Stderr σ w).2 = c ∧
      (c.Stderr σ w).1.get c = { σ.get c with stdout := w } ∧
      ∀ r, r ≠ c.ref → (c.Stderr σ w).1 r = σ r) ∧
    ((c.Silent σ).2 = c ∧
      (c.Silent σ).1.get c = { σ.get c with stdout := none, stderr := none } ∧
      ∀ r, r ≠ c.ref → (c.Silent σ).1 r = σ r) ∧
    ((c.CollapseArgs σ).2 = c ∧
      (c.CollapseArgs σ).1.get c
          = { σ.get c with args := (σ.get c).args.filter (fun arg => arg != "") } ∧
      ∀ r, r ≠ c.ref → (c.CollapseArgs σ).1 r = σ r) := by
  refine ⟨⟨rfl, ?_, ?_⟩, ⟨rfl, ?_, ?_⟩, ⟨rfl, ?_, ?_⟩, ⟨rfl, ?_, ?_⟩,
    ⟨rfl, ?_, ?_⟩, ⟨rfl, ?_, ?_⟩, ⟨rfl, ?_, ?_⟩⟩ <;>
    first
      | (intro r hr
         simp [PreparedCommand.Args, PreparedCommand.Env, PreparedCommand.In,
           PreparedCommand.Stdout, PreparedCommand.Stderr,
           PreparedCommand.Silent, PreparedCommand.CollapseArgs,
           Store.get, Store.write, hr])
      | simp [PreparedCommand.Args, PreparedCommand.Env, PreparedCommand.In,
          PreparedCommand.Stdout, PreparedCommand.Stderr,
          PreparedCommand.Silent, PreparedCommand.CollapseArgs,
          Store.get, Store.write]

/-- C4 (witness): the amended theorem applied at a concrete store, handle
and untouched cell. -/
theorem builder_ops_mutate_shared_cmd_witness :
    (1 : Nat) ≠ (⟨0⟩ : PreparedCommand).ref ∧
    ((⟨0⟩ : PreparedCommand).Args store0 ["x"]).1 1 = store0 1 :=
  ⟨by decide,
    (builder_ops_mutate_shared_cmd store0 ⟨0⟩ ["x"] [] "d" none).1.2.2 1
      (by decide)⟩

/-- C5: `CollapseArgs` stores exactly the non-empty arguments — membership
in the result is membership among the original non-empty entries, and the
result is a sublist of the original (relative order preserved) — it is
idempotent at the builder level, and on the spec's example
`["-x", "", "-y", "val"]` (preceded by the program name in `Cmd.Args`) it
yields `["-x", "-y", "val"]`. -/
theorem collapseArgs_filters_and_idempotent :
    (∀ (σ : Store) (c : PreparedCommand),
        ((c.CollapseArgs σ).1.get (c.CollapseArgs σ).2).args
          = ((σ.get c).args).filter (fun arg => arg != "")) ∧
    (∀ (l : List String) (a : String),
        a ∈ l.filter (fun arg => arg != "") ↔ a ∈ l ∧ a ≠ "") ∧
    (∀ l : List String, (l.filter (fun arg => arg != "")).Sublist l) ∧
    (∀ (σ : Store) (c : PreparedCommand),
        ((((c.CollapseArgs σ).2.CollapseArgs (c.CollapseArgs σ).1).1).get
            (((c.CollapseArgs σ).2.CollapseArgs (c.CollapseArgs σ).1).2)).args
          = ((c.CollapseArgs σ).1.get (c.CollapseArgs σ).2).args) ∧
    (let p := Command store0 0 [] "prog" ["-x", "", "-y", "val"]
     ((p.2.CollapseArgs p.1).1.get (p.2.CollapseArgs p.1).2).args
        = ["prog", "-x", "-y", "val"]) := by
  refine ⟨?_, ?_, ?_, ?_, by decide⟩
  · intro σ c
    simp [PreparedCommand.CollapseArgs, Store.get, Store.write]
  · intro l a
    rw [List.mem_filter]
    simp
  · intro l
    exact List.filter_sublist l
  · intro σ c
    simp only [PreparedCommand.CollapseArgs, Store.get, Store.write,
      if_pos rfl]
    exact filter_ne_empty_idem _

/-- C6: before launching, the package-level `Exec` rewrites the program
name and every argument with `os.Expand` under the overlay-then-ambient
mapping: the mapping takes the overlay's value when the overlay defines the
name, else the ambient value, else `""`; a `$NAME` reference (alphanumeric
name not starting with a shell-special character) and a `${NAME}` reference
both expand to the mapping's value; and on the spec's examples, overlay
`{"FOO": "bar"}` makes `"$FOO"` expand to `"bar"` while an unset `"$UNSET"`
expands to `""`. -/
theorem exec_expands_env_references (env amb : List (String × String)) :
    (∀ (so se : Option Writer) (cmd : String) (args : List String)
        (child : ChildBehavior),
        (Exec env amb so se cmd args child).launchedCmd
            = osExpand cmd (execExpandMapping env amb) ∧
        (Exec env amb so se cmd args child).finalArgs
            = args.map (fun a => osExpand a (execExpandMapping env amb))) ∧
    (∀ name v, lookupEnv env name = some v →
        execExpandMapping env amb name = v) ∧
    (∀ name v, lookupEnv env name = none → lookupEnv amb name = some v →
        execExpandMapping env amb name = v) ∧
    (∀ name, lookupEnv env name = none → lookupEnv amb name = none →
        execExpandMapping env amb name = "") ∧
    (∀ (name : String) (c0 : Char) (t : List Char),
        name.toList = c0 :: t →
        (∀ c ∈ name.toList, isAlphaNum c = true) →
        isShellSpecialVar c0 = false →
        osExpand ("$" ++ name) (execExpandMapping env amb)
            = execExpandMapping env amb name) ∧
    (∀ name : String, name.toList ≠ [] → '}' ∉ name.toList →
        osExpand ("$\x7b" ++ name ++ "\x7d") (execExpandMapping env amb)
            = execExpandMapping env amb name) ∧
    osExpand "$FOO" (execExpandMapping [("FOO", "bar")] amb) = "bar" ∧
    osExpand "$UNSET" (execExpandMapping [] []) = "" := by
  refine ⟨fun so se cmd args child => Exec_launched env amb so se cmd args child,
    ?_, ?_, ?_, ?_, ?_, ?_, by decide⟩
  · intro name v h
    simp [execExpandMapping, h]
  · intro name v h1 h2
    simp [execExpandMapping, h1, osGetenv, h2]
  · intro name h1 h2
    simp [execExpandMapping, h1, osGetenv, h2]
  · intro name c0 t hsh halpha hspec
    exact osExpand_dollar _ name c0 t hsh halpha hspec
  · intro name h1 h2
    exact osExpand_braced _ name h1 h2
  · have h := osExpand_dollar (execExpandMapping [("FOO", "bar")] amb)
      "FOO" 'F' ['O', 'O'] (by decide) (by decide) (by decide)
    rw [show ("$" ++ "FOO" : String) = "$FOO" from rfl] at h
    rw [h]
    simp [execExpandMapping, lookupEnv]

/-- C6 (witness): the `$NAME` conjunct of the expansion theorem applied at
the overlay `{"FOO": "bar"}` and the name `FOO`. -/
theorem exec_expands_env_references_witness :
    ("FOO" : String).toList = 'F' :: ['O', 'O'] ∧
    osExpand ("$" ++ "FOO") (execExpandMapping [("FOO", "bar")] [])
        = execExpandMapping [("FOO", "bar")] [] "FOO" :=
  ⟨by decide,
    (exec_expands_env_references [("FOO", "bar")] []).2.2.2.2.1 "FOO" 'F'
      ['O', 'O'] (by decide) (by decide) (by decide)⟩

/-- C7: when the launch itself fails, the raw error is neither an
`*exec.ExitError` nor carries an `ExitStatus` accessor, so `CmdRan`
reports false and `ExitStatus` falls back to 1; accordingly both the
prepared command's `Exec` and the package-level `Exec` classify the run as
`ran = false` with a non-nil error, and the derived code is 1. -/
theorem launch_failure_ran_false_code_one (σ : Store) (c : PreparedCommand)
    (env amb : List (String × String)) (so se : Option Writer)
    (cmd : String) (args : List String) (child : ChildBehavior)
    (msg : String) (h : child.result = some (GoError.otherErr msg)) :
    (CmdRan (some (GoError.otherErr msg)) = false ∧
      ExitStatus (some (GoError.otherErr msg)) = 1) ∧
    ((c.Exec σ child).ran = false ∧ (c.Exec σ child).code = 1 ∧
      (c.Exec σ child).err.isSome = true) ∧
    ((Exec env amb so se cmd args child).ran = false ∧
      (Exec env amb so se cmd args child).err.isSome = true) := by
  rcases child with ⟨o, e, res⟩
  cases h
  refine ⟨⟨rfl, rfl⟩, ?_, ?_⟩
  · simp [PreparedCommand.Exec, cmdRawRun, CmdRan, ExitStatus]
  · simp [Exec, cmdRawRun, CmdRan]

/-- C7 (witness): the classification theorem applied to a concrete
child whose launch failed. -/
theorem launch_failure_ran_false_code_one_witness :
    (⟨"", "", some (GoError.otherErr "file not found")⟩ : ChildBehavior).result
        = some (GoError.otherErr "file not found") ∧
    (((⟨0⟩ : PreparedCommand).Exec store0
        ⟨"", "", some (GoError.otherErr "file not found")⟩).ran = false ∧
      ((⟨0⟩ : PreparedCommand).Exec store0
        ⟨"", "", some (GoError.otherErr "file not found")⟩).code = 1 ∧
      ((⟨0⟩ : PreparedCommand).Exec store0
        ⟨"", "", some (GoError.otherErr "file not found")⟩).err.isSome = true) :=
  ⟨rfl,
    (launch_failure_ran_false_code_one store0 ⟨0⟩ [] [] none none "x" []
      ⟨"", "", some (GoError.otherErr "file not found")⟩ "file not found"
      rfl).2.1⟩

/-- C8 (counterexample): the claim says the launch-failure message has the
form `failed to run "<program> <args>": <cause>` with the cause after the
closing quote.  At program `prog`, argument `a` and cause `boom` the code
produces `failed to run "prog a: boom"` — the cause inside the quotes —
which differs from the claimed form. -/
theorem launch_failure_msg_counterexample :
    (Exec [] [] none none "prog" ["a"]
        ⟨"", "", some (GoError.otherErr "boom")⟩).err
      = some (GoError.otherErr "failed to run \"prog a: boom\"") ∧
    ("failed to run \"prog a: boom\"" : String)
      ≠ specLaunchFailureMsg "prog" ["a"] "boom" := by
  decide

/-- C8 (amended): when the process never started, `Exec` wraps the
underlying error in a message of exactly the form
`failed to run "<program> <args>: <cause>"` — program and space-joined
arguments (after variable expansion) and the cause all inside the double
quotes, with the colon before the cause. -/
theorem launch_failure_msg_format (env amb : List (String × String))
    (so se : Option Writer) (cmd : String) (args : List String)
    (child : ChildBehavior) (m : String)
    (h : child.result = some (GoError.otherErr m)) :
    (Exec env amb so se cmd args child).err
      = some (GoError.otherErr
          ("failed to run \"" ++ osExpand cmd (execExpandMapping env amb) ++
            " " ++ String.intercalate " "
              (args.map (fun a => osExpand a (execExpandMapping env amb))) ++
            ": " ++ m ++ "\"")) := by
  rcases child with ⟨o, e, res⟩
  cases h
  simp [Exec, cmdRawRun, CmdRan, GoError.errString]

/-- C8 (witness): the amended message theorem applied at a concrete
program, argument list and cause. -/
theorem launch_failure_msg_format_witness :
    (⟨"", "", some (GoError.otherErr "boom")⟩ : ChildBehavior).result
        = some (GoError.otherErr "boom") ∧
    (Exec [] [] none none "prog" ["a"]
        ⟨"", "", some (GoError.otherErr "boom")⟩).err
      = some (GoError.otherErr
          ("failed to run \"" ++ osExpand "prog" (execExpandMapping [] []) ++
            " " ++ String.intercalate " "
              (["a"].map (fun a => osExpand a (execExpandMapping [] []))) ++
            ": " ++ "boom" ++ "\"")) :=
  ⟨rfl,
    launch_failure_msg_format [] [] none none "prog" ["a"]
      ⟨"", "", some (GoError.otherErr "boom")⟩ "boom" rfl⟩

/-- C9: the package-level `Exec` writes the expanded form of each argument
back into the caller's (shared) args slice, so after `Exec` returns the
slice holds the variable-expanded forms; with overlay `{"FOO": "bar"}` the
caller's `["$FOO"]` has become `["bar"]`, no longer what was passed in. -/
theorem exec_overwrites_caller_args (env amb : List (String × String))
    (so se : Option Writer) (cmd : String) (args : List String)
    (child : ChildBehavior) :
    (Exec env amb so se cmd args child).finalArgs
        = args.map (fun a => osExpand a (execExpandMapping env amb)) ∧
    (Exec [("FOO", "bar")] [] none none "prog" ["$FOO"] child).finalArgs
        = ["bar"] ∧
    (["bar"] : List String) ≠ ["$FOO"] := by
  refine ⟨(Exec_launched env amb so se cmd args child).2, ?_, by decide⟩
  rw [(Exec_launched [("FOO", "bar")] [] none none "prog" ["$FOO"] child).2]
  decide

/-- C10: the drain goroutine of a `Capture` delivers the buffered content
as exactly one value on the channel, so the first `Output` call returns it
and a second `Output` call on the same `Capture` receives on a channel with
no remaining sender and never returns (modelled as `none`). -/
theorem capture_output_delivers_once (content : String) :
    ((captureFile content).Output).1 = some content ∧
    (((captureFile content).Output).2.Output).1 = none :=
  ⟨rfl, rfl⟩

end MageSh
